import Mathlib

/-!
Verification development for the cc-led firmware core: the serial command
processor (`CommandProcessor.c`), the LED backends
(`NeoPixelLEDController.cpp`, `DigitalLEDController.cpp`), the serial line
assembler (`SerialCommandHandler.cpp`) and the orchestrator loop
(`UniversalMain.cpp`).  Command lines and responses are modelled as
`List Char`; the millisecond clock is a `Nat` truncated to 32 bits where the
code stores it in an `unsigned long`.
-/

namespace CcLed

/-! ### C character classification and numeric scanning

`isSpaceC` models C's `isspace` (space, tab, newline, vertical tab, form
feed, carriage return), which both `atoi` and `sscanf`'s `%d` use to skip
leading whitespace. -/

def isSpaceC (c : Char) : Bool :=
  c = ' ' || c = '\t' || c = '\n' || c = Char.ofNat 11 || c = Char.ofNat 12 || c = '\r'

def isDigitC (c : Char) : Bool :=
  '0' ≤ c && c ≤ '9'

def digitVal (c : Char) : Nat := c.toNat - 48

/-- Decimal value of a digit string, accumulated left to right exactly as
`atoi`/`%d` accumulate (`acc * 10 + digit`). -/
def decVal (l : List Char) : Nat :=
  l.foldl (fun a c => a * 10 + digitVal c) 0

def digitChar : Nat → Char
  | 0 => '0' | 1 => '1' | 2 => '2' | 3 => '3' | 4 => '4'
  | 5 => '5' | 6 => '6' | 7 => '7' | 8 => '8' | 9 => '9'
  | _ => '?'

/-- Canonical decimal rendering of a natural number, with fuel so that the
recursion is structural (the fuel `n + 1` always suffices). -/
def natToDecF : Nat → Nat → List Char
  | 0, _ => []
  | fuel + 1, n => if n < 10 then [digitChar n] else natToDecF fuel (n / 10) ++ [digitChar (n % 10)]

def natToDec (n : Nat) : List Char := natToDecF (n + 1) n

/-- Decimal rendering of a signed integer (`%ld`). -/
def intToDec (i : Int) : List Char :=
  if i < 0 then '-' :: natToDec i.natAbs else natToDec i.toNat

/-- Model of C `atoi`: skip leading whitespace, consume an optional single
sign, then a (possibly empty) run of digits; every failure mode yields 0. -/
def atoiL (l : List Char) : Int :=
  match l.dropWhile isSpaceC with
  | [] => 0
  | c :: r =>
    if c = '-' then -((decVal (r.takeWhile isDigitC) : Nat) : Int)
    else if c = '+' then ((decVal (r.takeWhile isDigitC) : Nat) : Int)
    else ((decVal ((c :: r).takeWhile isDigitC) : Nat) : Int)

/-- A nonempty digit run at the head of the input, as `%d` requires after
the optional sign: `none` is a matching failure. -/
def scanDigits (l : List Char) : Option (Nat × List Char) :=
  match l.takeWhile isDigitC with
  | [] => none
  | ds => some (decVal ds, l.dropWhile isDigitC)

/-- Model of `sscanf`'s `%d` conversion: skip whitespace, optional sign,
then at least one digit; returns the value and the unconsumed input. -/
def scanIntFrom (l : List Char) : Option (Int × List Char) :=
  match l.dropWhile isSpaceC with
  | [] => none
  | c :: r =>
    if c = '-' then (scanDigits r).map (fun p => (-(p.1 : Int), p.2))
    else if c = '+' then (scanDigits r).map (fun p => ((p.1 : Int), p.2))
    else (scanDigits (c :: r)).map (fun p => ((p.1 : Int), p.2))

/-- Split a character list at every comma.  Mirrors the `strchr(.., ',')`
walk of `parseColorCommand`/`parseBlink1Command`: the C code locates the
commas and runs `atoi` on each comma-delimited suffix, and since `atoi`
never scans across a `','` (a comma is neither whitespace, sign, nor
digit), its value on a suffix equals its value on the field alone. -/
def splitComma : List Char → List (List Char)
  | [] => [[]]
  | c :: rest =>
    if c = ',' then [] :: splitComma rest
    else
      match splitComma rest with
      | [] => [[c]]
      | f :: fs => (c :: f) :: fs

def firstIsMinus (l : List Char) : Bool :=
  match l with
  | c :: _ => c == '-'
  | [] => false

/-! ### CommandProcessor.c -/

/-- Model of `parseColorCommand` (CommandProcessor.c:6-45): requires the exact shape
`COLOR,f1,f2,f3` (a fourth comma is rejected), runs `atoi` on each field,
rejects values outside `[0,255]` and zero-valued fields whose raw text
starts with `'-'`. -/
def parseColorCommand (cmd : List Char) : Option (Nat × Nat × Nat) :=
  match splitComma cmd with
  | [['C', 'O', 'L', 'O', 'R'], f1, f2, f3] =>
    let r := atoiL f1
    let g := atoiL f2
    let b := atoiL f3
    if r < 0 ∨ r > 255 ∨ g < 0 ∨ g > 255 ∨ b < 0 ∨ b > 255 then none
    else if (r = 0 ∧ firstIsMinus f1) ∨ (g = 0 ∧ firstIsMinus f2) ∨ (b = 0 ∧ firstIsMinus f3) then
      none
    else some (r.toNat, g.toNat, b.toNat)
  | _ => none

/-- Model of `parseBlink1Command` (CommandProcessor.c:47-85): shape
`BLINK1,f1,f2,f3,f4` with no fifth comma, `atoi`/`atol` per field, channel
bounds and `interval > 0` (no negative-zero-text check here, unlike
`parseColorCommand`). -/
def parseBlink1Command (cmd : List Char) : Option (Nat × Nat × Nat × Int) :=
  match splitComma cmd with
  | [['B', 'L', 'I', 'N', 'K', '1'], f1, f2, f3, f4] =>
    let r := atoiL f1
    let g := atoiL f2
    let b := atoiL f3
    let i := atoiL f4
    if r < 0 ∨ r > 255 ∨ g < 0 ∨ g > 255 ∨ b < 0 ∨ b > 255 ∨ i ≤ 0 then none
    else some (r.toNat, g.toNat, b.toNat, i)
  | _ => none

def expectComma (l : List Char) : Option (List Char) :=
  match l with
  | ',' :: r => some r
  | _ => none

/-- The `%d,%d,%d,%d,%d,%d,%d` tail of the `BLINK2` format string: seven
`%d` conversions separated by literal commas; a failure anywhere makes
`sscanf` return fewer than 7, i.e. `none` here.  Trailing input after the
seventh conversion is ignored. -/
def scanSevenInts (l : List Char) : Option (Int × Int × Int × Int × Int × Int × Int) :=
  match scanIntFrom l with
  | none => none
  | some (v1, r1) =>
  match expectComma r1 with
  | none => none
  | some s1 =>
  match scanIntFrom s1 with
  | none => none
  | some (v2, r2) =>
  match expectComma r2 with
  | none => none
  | some s2 =>
  match scanIntFrom s2 with
  | none => none
  | some (v3, r3) =>
  match expectComma r3 with
  | none => none
  | some s3 =>
  match scanIntFrom s3 with
  | none => none
  | some (v4, r4) =>
  match expectComma r4 with
  | none => none
  | some s4 =>
  match scanIntFrom s4 with
  | none => none
  | some (v5, r5) =>
  match expectComma r5 with
  | none => none
  | some s5 =>
  match scanIntFrom s5 with
  | none => none
  | some (v6, r6) =>
  match expectComma r6 with
  | none => none
  | some s6 =>
  match scanIntFrom s6 with
  | none => none
  | some (v7, _) => some (v1, v2, v3, v4, v5, v6, v7)

/-- Model of `parseBlink2Command` (CommandProcessor.c:87-111):
`sscanf(cmd, "BLINK2,%d,%d,%d,%d,%d,%d,%d")` — exact literal prefix, seven
`%d` conversions separated by literal commas, trailing input ignored; then
`interval > 0` and channel bounds. -/
def parseBlink2Command (cmd : List Char) :
    Option (Nat × Nat × Nat × Nat × Nat × Nat × Int) :=
  if ("BLINK2,".data).isPrefixOf cmd then
    match scanSevenInts (cmd.drop 7) with
    | none => none
    | some (v1, v2, v3, v4, v5, v6, v7) =>
      if v7 > 0 ∧
          0 ≤ v1 ∧ v1 ≤ 255 ∧ 0 ≤ v2 ∧ v2 ≤ 255 ∧ 0 ≤ v3 ∧ v3 ≤ 255 ∧
          0 ≤ v4 ∧ v4 ≤ 255 ∧ 0 ≤ v5 ∧ v5 ≤ 255 ∧ 0 ≤ v6 ∧ v6 ≤ 255 then
        some (v1.toNat, v2.toNat, v3.toNat, v4.toNat, v5.toNat, v6.toNat, v7)
      else none
  else none

/-- Model of `parseRainbowCommand` (CommandProcessor.c:113-125):
`sscanf(cmd, "RAINBOW,%d")` — exact literal prefix, one `%d`, trailing
input ignored; then `interval > 0`. -/
def parseRainbowCommand (cmd : List Char) : Option Int :=
  if ("RAINBOW,".data).isPrefixOf cmd then
    match scanIntFrom (cmd.drop 8) with
    | some (v, _) => if v > 0 then some v else none
    | none => none
  else none

inductive CommandResult
  | accepted
  | rejected
deriving DecidableEq, Repr

structure CommandResponse where
  result : CommandResult
  response : List Char
deriving DecidableEq, Repr

/-- The `snprintf` calls into the 128-byte `response` buffer keeps at most 127
characters plus the terminator. -/
def snprintf128 (l : List Char) : List Char := l.take 127

/-- Model of `processCommand` (CommandProcessor.c:127-213).  A `none` command models
a NULL `cmd` pointer; the response pointer is assumed non-NULL. -/
def processCommand (cmd : Option (List Char)) : CommandResponse :=
  match cmd with
  | none => ⟨.rejected, "REJECT,,unknown command".data⟩
  | some c =>
    if c.length = 0 then ⟨.rejected, "REJECT,,unknown command".data⟩
    else if c = "ON".data then ⟨.accepted, "ACCEPTED,ON".data⟩
    else if c = "OFF".data then ⟨.accepted, "ACCEPTED,OFF".data⟩
    else if ("COLOR,".data).isPrefixOf c then
      match parseColorCommand c with
      | some _ => ⟨.accepted, snprintf128 ("ACCEPTED,".data ++ c)⟩
      | none => ⟨.rejected, snprintf128 ("REJECT,".data ++ c ++ ",invalid format".data)⟩
    else if ("BLINK1,".data).isPrefixOf c then
      match parseBlink1Command c with
      | some (r, g, b, i) =>
        ⟨.accepted, snprintf128 ("ACCEPTED,BLINK1,".data ++ natToDec r ++ ",".data ++
          natToDec g ++ ",".data ++ natToDec b ++ ",interval=".data ++ intToDec i)⟩
      | none => ⟨.rejected, snprintf128 ("REJECT,".data ++ c ++ ",invalid parameters".data)⟩
    else if ("BLINK2,".data).isPrefixOf c then
      match parseBlink2Command c with
      | some (r1, g1, b1, r2, g2, b2, i) =>
        ⟨.accepted, snprintf128 ("ACCEPTED,BLINK2,".data ++ natToDec r1 ++ ",".data ++
          natToDec g1 ++ ",".data ++ natToDec b1 ++ ",".data ++ natToDec r2 ++ ",".data ++
          natToDec g2 ++ ",".data ++ natToDec b2 ++ ",interval=".data ++ intToDec i)⟩
      | none => ⟨.rejected, snprintf128 ("REJECT,".data ++ c ++ ",invalid parameters".data)⟩
    else if ("RAINBOW,".data).isPrefixOf c then
      match parseRainbowCommand c with
      | some i => ⟨.accepted, snprintf128 ("ACCEPTED,RAINBOW,interval=".data ++ intToDec i)⟩
      | none => ⟨.rejected, snprintf128 ("REJECT,".data ++ c ++ ",invalid interval".data)⟩
    else ⟨.rejected, snprintf128 ("REJECT,".data ++ c ++ ",unknown command".data)⟩

/-! ### Clock arithmetic

`millis()` returns an `unsigned long` (32 bits on these boards); the code
computes `currentMillis - previousUpdateMillis` in unsigned arithmetic and
compares it against `currentInterval` (a `long`, converted to unsigned for
the comparison). -/

def U32 : Nat := 4294967296

/-- Unsigned 32-bit subtraction `a - b`. -/
def sub32 (a b : Nat) : Nat := (a % U32 + U32 - b % U32) % U32

/-- A `long` converted to `unsigned long` for the elapsed-time comparison. -/
def uintOfInterval (i : Int) : Nat := (i % (U32 : Int)).toNat

/-! ### NeoPixelLEDController (boards/common/src/NeoPixelLEDController.cpp)

Colors are kept symbolic: `rgb r g b` is `pixels.Color(r,g,b)`, `black` is
the literal `0` / `pixels.clear()`, and `gammaHSV h` is
`pixels.gamma32(pixels.ColorHSV(h))` — the gamma-corrected rendering of hue
`h`, applied before the value is handed to the strip (`setPixelColor` /
`show`). -/

inductive NeoColor
  | rgb (r g b : Nat)
  | black
  | gammaHSV (hue : Int)
deriving DecidableEq, Repr

inductive AnimationMode
  | NONE
  | BLINK1
  | BLINK2
  | RAINBOW
deriving DecidableEq, Repr

structure NeoState where
  animationMode : AnimationMode
  animationEnabled : Bool
  color1 : NeoColor
  color2 : NeoColor
  blinkState : Bool
  rainbowHue : Int
  currentInterval : Int
  previousUpdateMillis : Nat
  /-- the value last written to pixel 0 of the strip -/
  pixel0 : NeoColor
deriving DecidableEq, Repr

/-- Constructor plus `initialize()`: mode `NONE`, animation disabled,
`blinkState` false, `rainbowHue` 0, strip cleared.  `color1`/`color2` are
not explicitly initialized by the C++ constructor; we model them as
`black`, and no claim depends on this choice. -/
def neoInit : NeoState :=
  { animationMode := .NONE, animationEnabled := false, color1 := .black, color2 := .black,
    blinkState := false, rainbowHue := 0, currentInterval := 500, previousUpdateMillis := 0,
    pixel0 := .black }

def neoStopAnimation (s : NeoState) : NeoState :=
  { s with animationEnabled := false, animationMode := .NONE }

def neoSetColor (r g b : Nat) (s : NeoState) : NeoState :=
  { neoStopAnimation s with pixel0 := .rgb r g b }

def neoTurnOn (s : NeoState) : NeoState :=
  neoSetColor 255 255 255 (neoStopAnimation s)

def neoTurnOff (s : NeoState) : NeoState :=
  { neoStopAnimation s with pixel0 := .black }

def neoStartBlink (r g b : Nat) (interval : Int) (now : Nat) (s : NeoState) : NeoState :=
  { s with currentInterval := interval, color1 := .rgb r g b, animationMode := .BLINK1,
           animationEnabled := true, blinkState := false, previousUpdateMillis := now % U32,
           pixel0 := .black }

def neoStartBlink2 (r1 g1 b1 r2 g2 b2 : Nat) (interval : Int) (now : Nat)
    (s : NeoState) : NeoState :=
  { s with currentInterval := interval, color1 := .rgb r1 g1 b1, color2 := .rgb r2 g2 b2,
           animationMode := .BLINK2, animationEnabled := true, blinkState := false,
           previousUpdateMillis := now % U32, pixel0 := .rgb r1 g1 b1 }

def neoStartRainbow (interval : Int) (now : Nat) (s : NeoState) : NeoState :=
  { s with currentInterval := interval, animationMode := .RAINBOW, animationEnabled := true,
           rainbowHue := 0, previousUpdateMillis := now % U32 }

/-- Model of `NeoPixelLEDController::update()` instrumented with the number of phase
advances it performs (the area inside the `switch`): returns the new state
and that count. -/
def neoUpdateN (now : Nat) (s : NeoState) : NeoState × Nat :=
  if s.animationEnabled = false then (s, 0)
  else if sub32 (now % U32) s.previousUpdateMillis < uintOfInterval s.currentInterval then
    (s, 0)
  else
    let s0 := { s with previousUpdateMillis := now % U32 }
    match s.animationMode with
    | .BLINK1 =>
      let s1 := { s0 with blinkState := !s0.blinkState }
      ({ s1 with pixel0 := if s1.blinkState then s1.color1 else .black }, 1)
    | .BLINK2 =>
      let s1 := { s0 with blinkState := !s0.blinkState }
      ({ s1 with pixel0 := if s1.blinkState then s1.color1 else s1.color2 }, 1)
    | .RAINBOW =>
      let s1 := { s0 with pixel0 := .gammaHSV s0.rainbowHue }
      let h2 : Int := s1.rainbowHue + 256
      ({ s1 with rainbowHue := if h2 > 65535 then 0 else h2 }, 1)
    | .NONE => (s0, 0)

def neoUpdate (now : Nat) (s : NeoState) : NeoState := (neoUpdateN now s).1

/-! ### DigitalLEDController (sketches/common/src/DigitalLEDController.cpp) -/

def HIGH : Nat := 1
def LOW : Nat := 0

structure DigState where
  /-- the value last passed to `digitalWrite` (stored by `setLEDState`) -/
  currentState : Nat
  blinkEnabled : Bool
  blinkState : Bool
  animationEnabled : Bool
  currentInterval : Int
  previousUpdateMillis : Nat
deriving DecidableEq, Repr

/-- Constructor plus `initialize()`: pin low, animation disabled; the
inherited defaults are `previousUpdateMillis = 0`, `currentInterval = 500`. -/
def digInit : DigState :=
  { currentState := LOW, blinkEnabled := false, blinkState := false,
    animationEnabled := false, currentInterval := 500, previousUpdateMillis := 0 }

def setLEDState (st : Nat) (s : DigState) : DigState :=
  { s with currentState := st }

def digStopAnimation (s : DigState) : DigState :=
  { s with animationEnabled := false }

def digTurnOn (s : DigState) : DigState :=
  setLEDState HIGH (digStopAnimation s)

def digTurnOff (s : DigState) : DigState :=
  setLEDState LOW (digStopAnimation s)

/-- Digital LEDs ignore color — just turn on. -/
def digSetColor (_r _g _b : Nat) (s : DigState) : DigState :=
  setLEDState HIGH (digStopAnimation s)

def digStartBlink (_r _g _b : Nat) (interval : Int) (now : Nat) (s : DigState) : DigState :=
  setLEDState LOW
    { s with currentInterval := interval, animationEnabled := true, blinkState := false,
             previousUpdateMillis := now % U32 }

/-- Not supported — fall back to single blink on the first color triple. -/
def digStartBlink2 (r1 g1 b1 _r2 _g2 _b2 : Nat) (interval : Int) (now : Nat)
    (s : DigState) : DigState :=
  digStartBlink r1 g1 b1 interval now s

/-- Not supported — turn on solid. -/
def digStartRainbow (_interval : Int) (_now : Nat) (s : DigState) : DigState :=
  digTurnOn s

/-- Model of `DigitalLEDController::update()` instrumented with its phase-advance
count. -/
def digUpdateN (now : Nat) (s : DigState) : DigState × Nat :=
  if s.animationEnabled = false then (s, 0)
  else if uintOfInterval s.currentInterval ≤ sub32 (now % U32) s.previousUpdateMillis then
    let s1 := { s with previousUpdateMillis := now % U32, blinkState := !s.blinkState }
    (setLEDState (if s1.blinkState then HIGH else LOW) s1, 1)
  else (s, 0)

def digUpdate (now : Nat) (s : DigState) : DigState := (digUpdateN now s).1

/-! ### Serial line assembler (sketches/common/src/SerialCommandHandler.cpp)

The same `handleSerial` logic appears verbatim in
boards/common/src/SerialCommandHandler.cpp. -/

/-- Arduino `String::trim()`: strip leading and trailing `isspace`
characters. -/
def trimWS (l : List Char) : List Char :=
  ((l.dropWhile isSpaceC).reverse.dropWhile isSpaceC).reverse

def overflowMsg : List Char := "REJECT,BUFFER_OVERFLOW,command too long".data

structure HandlerState where
  serialBuffer : List Char
  commandReady : Bool
deriving DecidableEq, Repr

/-- Model of `SerialCommandHandler::handleSerial()` over a queue of pending input
bytes: consume bytes one at a time; a `'\n'` on a non-empty buffer trims it,
marks a command ready and returns (leaving the rest of the queue pending —
one command per loop cycle); a `'\n'` on an empty buffer is skipped; any
other byte is appended, and if the buffer then exceeds 60 characters it is
discarded and the overflow rejection is emitted.  Returns the new handler
state, the unconsumed input, and the emitted response lines in order. -/
def handleSerialAux : HandlerState → List Char → HandlerState × List Char × List (List Char)
  | s, [] => (s, [], [])
  | s, c :: rest =>
    if c = '\n' then
      if s.serialBuffer.length > 0 then
        ({ serialBuffer := trimWS s.serialBuffer, commandReady := true }, rest, [])
      else handleSerialAux s rest
    else
      let buf := s.serialBuffer ++ [c]
      if buf.length > 60 then
        let q := handleSerialAux { s with serialBuffer := [] } rest
        (q.1, q.2.1, overflowMsg :: q.2.2)
      else handleSerialAux { s with serialBuffer := buf } rest

/-! ### Backend dispatch and the orchestrator (UniversalMain.cpp)

`LEDController` is a virtual interface; `Backend σ` is its operation table,
instantiated by the two variants.  `millis()` is sampled as `now` for every
call made during one loop iteration. -/

structure Backend (σ : Type) where
  update : Nat → σ → σ
  turnOn : σ → σ
  turnOff : σ → σ
  setColor : Nat → Nat → Nat → σ → σ
  startBlink : Nat → Nat → Nat → Int → Nat → σ → σ
  startBlink2 : Nat → Nat → Nat → Nat → Nat → Nat → Int → Nat → σ → σ
  startRainbow : Int → Nat → σ → σ

def neoBackend : Backend NeoState :=
  { update := neoUpdate, turnOn := fun s => neoTurnOn s, turnOff := neoTurnOff,
    setColor := neoSetColor, startBlink := neoStartBlink, startBlink2 := neoStartBlink2,
    startRainbow := neoStartRainbow }

def digBackend : Backend DigState :=
  { update := digUpdate, turnOn := digTurnOn, turnOff := digTurnOff,
    setColor := digSetColor, startBlink := digStartBlink, startBlink2 := digStartBlink2,
    startRainbow := digStartRainbow }

/-- Model of `SerialCommandHandler::processCommand(const String&)`
(sketches/common/src/SerialCommandHandler.cpp:44-88): run the C
`processCommand` for the response, and on `COMMAND_ACCEPTED` dispatch the
matching backend operation; finally the response line is printed.  Returns
the new backend state and the response line. -/
def schProcessCommand {σ : Type} (B : Backend σ) (now : Nat) (cmd : List Char)
    (st : σ) : σ × List Char :=
  let resp := processCommand (some cmd)
  let st2 :=
    if resp.result = .accepted then
      if cmd = "ON".data then B.turnOn st
      else if cmd = "OFF".data then B.turnOff st
      else if ("COLOR,".data).isPrefixOf cmd then
        match parseColorCommand cmd with
        | some (r, g, b) => B.setColor r g b st
        | none => st
      else if ("BLINK1,".data).isPrefixOf cmd then
        match parseBlink1Command cmd with
        | some (r, g, b, i) => B.startBlink r g b i now st
        | none => st
      else if ("BLINK2,".data).isPrefixOf cmd then
        match parseBlink2Command cmd with
        | some (r1, g1, b1, r2, g2, b2, i) => B.startBlink2 r1 g1 b1 r2 g2 b2 i now st
        | none => st
      else if ("RAINBOW,".data).isPrefixOf cmd then
        match parseRainbowCommand cmd with
        | some i => B.startRainbow i now st
        | none => st
      else st
    else st
  (st2, resp.response)

/-- Model of `SerialCommandHandler::processCommands()`: if a command is ready,
process it, then clear the buffer and the ready flag. -/
def processCommandsM {σ : Type} (B : Backend σ) (now : Nat) (h : HandlerState)
    (st : σ) : HandlerState × σ × List (List Char) :=
  if h.commandReady then
    let r := schProcessCommand B now h.serialBuffer st
    (⟨[], false⟩, r.1, [r.2])
  else (h, st, [])

inductive LoopEvent
  | update
  | dispatch
deriving DecidableEq, Repr

structure LoopResult (σ : Type) where
  handler : HandlerState
  led : σ
  remaining : List Char
  outputs : List (List Char)
  events : List LoopEvent
deriving DecidableEq, Repr

/-- Model of `universalLoop()` (UniversalMain.cpp:21-30), one iteration:
`commandHandler->handleSerial()`, then `ledController->update()`, then
`commandHandler->processCommands()`.  `events` records, in execution order,
the animation tick and (when a completed command was dispatched) the
dispatch. -/
def universalLoopEv {σ : Type} (B : Backend σ) (now : Nat) (h : HandlerState)
    (led : σ) (input : List Char) : LoopResult σ :=
  let q := handleSerialAux h input
  let led1 := B.update now led
  let p := processCommandsM B now q.1 led1
  { handler := p.1, led := p.2.1, remaining := q.2.1, outputs := q.2.2 ++ p.2.2,
    events := LoopEvent.update :: (if q.1.commandReady then [LoopEvent.dispatch] else []) }

/-- The loop order the specification's §4.5 describes (drain input, parse
and dispatch the ready command, then advance the animation): dispatch
precedes the same iteration's `update()`.  This definition follows the
spec's words, for comparison with `universalLoopEv`, which follows the
code. -/
def claimOrderLoop {σ : Type} (B : Backend σ) (now : Nat) (h : HandlerState)
    (led : σ) (input : List Char) : LoopResult σ :=
  let q := handleSerialAux h input
  let p := processCommandsM B now q.1 led
  let led2 := B.update now p.2.1
  { handler := p.1, led := led2, remaining := q.2.1, outputs := q.2.2 ++ p.2.2,
    events := (if q.1.commandReady then [LoopEvent.dispatch] else []) ++ [LoopEvent.update] }

/-! ### List and digit helper lemmas -/

theorem takeWhile_all {p : Char → Bool} :
    ∀ {l : List Char}, (∀ c ∈ l, p c = true) → l.takeWhile p = l := by
  intro l
  induction l with
  | nil => intro _; rfl
  | cons a t ih =>
    intro h
    have ha : p a = true := h a (List.mem_cons_self a t)
    have ht : ∀ c ∈ t, p c = true := fun c hc => h c (List.mem_cons_of_mem a hc)
    simp [List.takeWhile_cons, ha, ih ht]

theorem dropWhile_all {p : Char → Bool} :
    ∀ {l : List Char}, (∀ c ∈ l, p c = true) → l.dropWhile p = [] := by
  intro l
  induction l with
  | nil => intro _; rfl
  | cons a t ih =>
    intro h
    have ha : p a = true := h a (List.mem_cons_self a t)
    have ht : ∀ c ∈ t, p c = true := fun c hc => h c (List.mem_cons_of_mem a hc)
    simp [List.dropWhile_cons, ha, ih ht]

theorem take_all_of_le {α : Type} : ∀ {l : List α} {n : Nat}, l.length ≤ n → l.take n = l := by
  intro l
  induction l with
  | nil => intro n _; simp
  | cons a t ih =>
    intro n h
    cases n with
    | zero => simp at h
    | succ m => simp only [List.take_succ_cons]; rw [ih (by simpa using h)]

theorem isPrefixOf_append_self : ∀ (l t : List Char), l.isPrefixOf (l ++ t) = true := by
  intro l t
  induction l with
  | nil => simp [List.isPrefixOf]
  | cons a u ih => simp [List.isPrefixOf, ih]

theorem isPrefixOf_cons_ne {a b : Char} {as bs : List Char} (h : (a == b) = false) :
    (a :: as).isPrefixOf (b :: bs) = false := by
  simp [List.isPrefixOf, h]

theorem digitVal_digitChar {d : Nat} (h : d < 10) : digitVal (digitChar d) = d := by
  interval_cases d <;> rfl

theorem isDigitC_digitChar {d : Nat} (h : d < 10) : isDigitC (digitChar d) = true := by
  interval_cases d <;> rfl

theorem isDigitC_char_facts {c : Char} (h : isDigitC c = true) :
    isSpaceC c = false ∧ c ≠ '-' ∧ c ≠ '+' ∧ c ≠ ',' := by
  refine ⟨?_, ?_, ?_, ?_⟩
  · cases hx : isSpaceC c with
    | false => rfl
    | true =>
      exfalso
      unfold isSpaceC at hx
      simp only [Bool.or_eq_true, decide_eq_true_eq] at hx
      rcases hx with ((((h1 | h1) | h1) | h1) | h1) | h1 <;>
        (subst h1; exact absurd h (by decide))
  · intro hc; subst hc; exact absurd h (by decide)
  · intro hc; subst hc; exact absurd h (by decide)
  · intro hc; subst hc; exact absurd h (by decide)

theorem decVal_append_digit (l : List Char) (c : Char) :
    decVal (l ++ [c]) = decVal l * 10 + digitVal c := by
  unfold decVal
  rw [List.foldl_append]
  rfl

theorem natToDecF_all_digits :
    ∀ fuel n, n < fuel → ∀ c ∈ natToDecF fuel n, isDigitC c = true := by
  intro fuel
  induction fuel with
  | zero => intro n h; omega
  | succ f ih =>
    intro n h c hc
    unfold natToDecF at hc
    by_cases h10 : n < 10
    · rw [if_pos h10] at hc
      simp only [List.mem_singleton] at hc
      subst hc
      exact isDigitC_digitChar h10
    · rw [if_neg h10] at hc
      rcases List.mem_append.mp hc with hm | hm
      · exact ih (n / 10) (by omega) c hm
      · simp only [List.mem_singleton] at hm
        subst hm
        exact isDigitC_digitChar (Nat.mod_lt n (by omega))

theorem natToDec_all_digits (n : Nat) : ∀ c ∈ natToDec n, isDigitC c = true :=
  natToDecF_all_digits (n + 1) n (Nat.lt_succ_self n)

theorem decVal_natToDecF : ∀ fuel n, n < fuel → decVal (natToDecF fuel n) = n := by
  intro fuel
  induction fuel with
  | zero => intro n h; omega
  | succ f ih =>
    intro n h
    unfold natToDecF
    by_cases h10 : n < 10
    · rw [if_pos h10]
      show decVal ([] ++ [digitChar n]) = n
      rw [decVal_append_digit]
      simp [decVal, digitVal_digitChar h10]
    · rw [if_neg h10]
      rw [decVal_append_digit, ih (n / 10) (by omega),
        digitVal_digitChar (Nat.mod_lt n (by omega))]
      omega

theorem decVal_natToDec (n : Nat) : decVal (natToDec n) = n :=
  decVal_natToDecF (n + 1) n (Nat.lt_succ_self n)

theorem natToDecF_ne_nil (fuel n : Nat) (h : 0 < fuel) : natToDecF fuel n ≠ [] := by
  cases fuel with
  | zero => omega
  | succ f =>
    unfold natToDecF
    by_cases h10 : n < 10
    · rw [if_pos h10]; simp
    · rw [if_neg h10]; simp

theorem natToDec_ne_nil (n : Nat) : natToDec n ≠ [] :=
  natToDecF_ne_nil (n + 1) n (Nat.succ_pos n)

/-- Running `atoi` on a canonical digit string reads back the value. -/
theorem atoiL_natToDec (n : Nat) : atoiL (natToDec n) = (n : Int) := by
  obtain ⟨c, cs, hcons⟩ := List.exists_cons_of_ne_nil (natToDec_ne_nil n)
  have hdig : ∀ d ∈ natToDec n, isDigitC d = true := natToDec_all_digits n
  have hc : isDigitC c = true := hdig c (by rw [hcons]; exact List.mem_cons_self c cs)
  obtain ⟨hsp, hminus, hplus, _⟩ := isDigitC_char_facts hc
  unfold atoiL
  rw [hcons, List.dropWhile_cons, hsp]
  simp only [Bool.false_eq_true, if_false, if_neg hminus, if_neg hplus]
  rw [← hcons, takeWhile_all hdig, decVal_natToDec]

/-- Scanning `%d` on a canonical digit string consumes it entirely. -/
theorem scanIntFrom_natToDec (n : Nat) : scanIntFrom (natToDec n) = some ((n : Int), []) := by
  obtain ⟨c, cs, hcons⟩ := List.exists_cons_of_ne_nil (natToDec_ne_nil n)
  have hdig : ∀ d ∈ natToDec n, isDigitC d = true := natToDec_all_digits n
  have hc : isDigitC c = true := hdig c (by rw [hcons]; exact List.mem_cons_self c cs)
  obtain ⟨hsp, hminus, hplus, _⟩ := isDigitC_char_facts hc
  unfold scanIntFrom
  rw [hcons, List.dropWhile_cons, hsp]
  simp only [Bool.false_eq_true, if_false, if_neg hminus, if_neg hplus]
  unfold scanDigits
  rw [← hcons, takeWhile_all hdig, dropWhile_all hdig]
  obtain ⟨d, ds, hd⟩ := List.exists_cons_of_ne_nil (natToDec_ne_nil n)
  rw [hd]
  show Option.map _ (some (decVal (d :: ds), [])) = _
  rw [← hd, decVal_natToDec]
  rfl

theorem splitComma_no_comma :
    ∀ {l : List Char}, ',' ∉ l → splitComma l = [l] := by
  intro l
  induction l with
  | nil => intro _; rfl
  | cons a t ih =>
    intro h
    have ha : a ≠ ',' := fun hc => h (hc ▸ List.mem_cons_self a t)
    have ht : ',' ∉ t := fun hc => h (List.mem_cons_of_mem a hc)
    unfold splitComma
    rw [if_neg ha, ih ht]

theorem splitComma_append {u : List Char} (hu : ',' ∉ u) (v : List Char) :
    splitComma (u ++ ',' :: v) = u :: splitComma v := by
  induction u with
  | nil =>
    show splitComma (',' :: v) = [] :: splitComma v
    conv_lhs => unfold splitComma
    rw [if_pos rfl]
  | cons a t ih =>
    have ha : a ≠ ',' := fun hc => hu (hc ▸ List.mem_cons_self a t)
    have ht : ',' ∉ t := fun hc => hu (List.mem_cons_of_mem a hc)
    show splitComma (a :: (t ++ ',' :: v)) = (a :: t) :: splitComma v
    conv_lhs => unfold splitComma
    rw [if_neg ha, ih ht]

theorem natToDec_no_comma (n : Nat) : ',' ∉ natToDec n := by
  intro hc
  have := natToDec_all_digits n ',' hc
  exact absurd this (by decide)

/-! ### Claim theorems -/

/-- Claim C7: on the Digital backend, `setColor(r,g,b)` produces the same
backend state as `turnOn()` for all channel values; `startBlink2` with two
color triples produces the same state as `startBlink` on the first triple;
and `startRainbow` produces the same state as `turnOn()` (solid on). -/
theorem C7_digital_degradation :
    (∀ (r g b : Nat) (s : DigState), digSetColor r g b s = digTurnOn s) ∧
    (∀ (r1 g1 b1 r2 g2 b2 : Nat) (i : Int) (now : Nat) (s : DigState),
      digStartBlink2 r1 g1 b1 r2 g2 b2 i now s = digStartBlink r1 g1 b1 i now s) ∧
    (∀ (i : Int) (now : Nat) (s : DigState), digStartRainbow i now s = digTurnOn s) :=
  ⟨fun _ _ _ _ => rfl, fun _ _ _ _ _ _ _ _ _ => rfl, fun _ _ _ => rfl⟩

/-- Claim C9: `turnOff` is idempotent on both backends: after one `OFF` the
animation state is idle (mode `NONE` / animation disabled), and a second
`turnOff` yields exactly the same backend state as the first. -/
theorem C9_turnOff_idempotent :
    (∀ s : NeoState, (neoTurnOff s).animationMode = .NONE ∧
      (neoTurnOff s).animationEnabled = false ∧
      neoTurnOff (neoTurnOff s) = neoTurnOff s) ∧
    (∀ s : DigState, (digTurnOff s).animationEnabled = false ∧
      digTurnOff (digTurnOff s) = digTurnOff s) :=
  ⟨fun _ => ⟨rfl, rfl, rfl⟩, fun _ => ⟨rfl, rfl⟩⟩

/-- Claim C5: on both backends a single `update()` call performs exactly
zero or one phase advance: zero precisely when the animation is disabled or
the (32-bit wrapped) elapsed time since the last phase change is below the
configured interval, and one otherwise, in which case the last-change
timestamp is reset to the current clock; in particular there is never more
than one advance per call however much time has elapsed.  For the NeoPixel
backend the hypothesis `enabled → mode ≠ NONE` is the invariant every
reachable state satisfies (`initialize`/`stopAnimation` disable together
with setting `NONE`; every `start*` sets a non-`NONE` mode and enables). -/
theorem C5_single_phase_advance :
    (∀ (s : NeoState) (now : Nat), (s.animationEnabled = true → s.animationMode ≠ .NONE) →
      ((neoUpdateN now s).2 = 0 ∨ (neoUpdateN now s).2 = 1) ∧
      ((neoUpdateN now s).2 = 0 ↔ (s.animationEnabled = false ∨
        sub32 (now % U32) s.previousUpdateMillis < uintOfInterval s.currentInterval)) ∧
      ((neoUpdateN now s).2 = 1 → (neoUpdateN now s).1.previousUpdateMillis = now % U32)) ∧
    (∀ (s : DigState) (now : Nat),
      ((digUpdateN now s).2 = 0 ∨ (digUpdateN now s).2 = 1) ∧
      ((digUpdateN now s).2 = 0 ↔ (s.animationEnabled = false ∨
        sub32 (now % U32) s.previousUpdateMillis < uintOfInterval s.currentInterval)) ∧
      ((digUpdateN now s).2 = 1 → (digUpdateN now s).1.previousUpdateMillis = now % U32)) := by
  constructor
  · intro s now hmode
    unfold neoUpdateN
    by_cases he : s.animationEnabled = false
    · simp [he]
    · have he' : s.animationEnabled = true := by
        cases hx : s.animationEnabled
        · exact absurd hx he
        · rfl
      rw [if_neg he]
      by_cases hel : sub32 (now % U32) s.previousUpdateMillis < uintOfInterval s.currentInterval
      · simp [hel]
      · rw [if_neg hel]
        have hne := hmode he'
        cases hm : s.animationMode with
        | NONE => exact absurd hm hne
        | BLINK1 => simp [he, hel]
        | BLINK2 => simp [he, hel]
        | RAINBOW => simp [he, hel]
  · intro s now
    unfold digUpdateN
    by_cases he : s.animationEnabled = false
    · simp [he]
    · rw [if_neg he]
      by_cases hel : uintOfInterval s.currentInterval ≤ sub32 (now % U32) s.previousUpdateMillis
      · rw [if_pos hel]
        simp [he, Nat.not_lt.mpr hel, setLEDState]
      · rw [if_neg hel]
        simp [he, Nat.lt_of_not_le hel]

/-- A BLINK1 animation running and due: witness input for C5. -/
def sampleNeoBlink : NeoState :=
  { neoInit with
    animationMode := .BLINK1
    animationEnabled := true
    currentInterval := 100
    previousUpdateMillis := 0
    color1 := .rgb 3 4 5 }

/-- Witness for C5 at a concrete running blink animation and clock 1000. -/
theorem C5_single_phase_advance_witness :
    ((neoUpdateN 1000 sampleNeoBlink).2 = 0 ∨ (neoUpdateN 1000 sampleNeoBlink).2 = 1) ∧
    ((neoUpdateN 1000 sampleNeoBlink).2 = 0 ↔ (sampleNeoBlink.animationEnabled = false ∨
      sub32 (1000 % U32) sampleNeoBlink.previousUpdateMillis <
        uintOfInterval sampleNeoBlink.currentInterval)) ∧
    ((neoUpdateN 1000 sampleNeoBlink).2 = 1 →
      (neoUpdateN 1000 sampleNeoBlink).1.previousUpdateMillis = 1000 % U32) :=
  C5_single_phase_advance.1 sampleNeoBlink 1000 (by decide)

/-- Claim C8: in `RAINBOW` mode a due `update()` writes the gamma-corrected
HSV rendering of the current hue to the pixel (`gamma32(ColorHSV(hue))`,
gamma applied before the value goes to the strip), then advances the hue
accumulator by exactly 256 — one 1/256 step of the 65536-wide hue space —
resetting it to 0 past the boundary; and every `update()` keeps the
accumulator inside `[0, 65535]`. -/
theorem C8_rainbow_hue_step :
    (∀ (s : NeoState) (now : Nat), 0 ≤ s.rainbowHue → s.rainbowHue ≤ 65535 →
      0 ≤ (neoUpdate now s).rainbowHue ∧ (neoUpdate now s).rainbowHue ≤ 65535) ∧
    (∀ (s : NeoState) (now : Nat), s.animationMode = .RAINBOW → s.animationEnabled = true →
      uintOfInterval s.currentInterval ≤ sub32 (now % U32) s.previousUpdateMillis →
      (neoUpdate now s).rainbowHue =
        (if s.rainbowHue + 256 > 65535 then 0 else s.rainbowHue + 256) ∧
      (neoUpdate now s).pixel0 = NeoColor.gammaHSV s.rainbowHue) := by
  constructor
  · intro s now h0 h1
    unfold neoUpdate neoUpdateN
    by_cases he : s.animationEnabled = false
    · simp [he]; omega
    · rw [if_neg he]
      by_cases hel : sub32 (now % U32) s.previousUpdateMillis < uintOfInterval s.currentInterval
      · simp [hel]; omega
      · rw [if_neg hel]
        cases hm : s.animationMode with
        | NONE => simp; omega
        | BLINK1 => simp; omega
        | BLINK2 => simp; omega
        | RAINBOW =>
          by_cases hh : s.rainbowHue + 256 > 65535
          · simp [hh]
          · simp [hh]; omega
  · intro s now hm he hdue
    unfold neoUpdate neoUpdateN
    rw [if_neg (by simp [he]), if_neg (Nat.not_lt.mpr hdue), hm]
    exact ⟨rfl, rfl⟩

/-- A running rainbow animation near the hue boundary: witness input for C8. -/
def sampleNeoRainbow : NeoState :=
  { neoInit with
    animationMode := .RAINBOW
    animationEnabled := true
    currentInterval := 50
    previousUpdateMillis := 0
    rainbowHue := 65280 }

/-- Witness for C8 at a concrete due rainbow state sitting at hue 65280:
the advance wraps the accumulator to 0. -/
theorem C8_rainbow_hue_step_witness :
    ((neoUpdate 50 sampleNeoRainbow).rainbowHue =
      (if sampleNeoRainbow.rainbowHue + 256 > 65535 then 0
        else sampleNeoRainbow.rainbowHue + 256) ∧
      (neoUpdate 50 sampleNeoRainbow).pixel0 =
        NeoColor.gammaHSV sampleNeoRainbow.rainbowHue) ∧
    (0 ≤ (neoUpdate 50 sampleNeoRainbow).rainbowHue ∧
      (neoUpdate 50 sampleNeoRainbow).rainbowHue ≤ 65535) :=
  ⟨C8_rainbow_hue_step.2 sampleNeoRainbow 50 rfl rfl (by decide),
   C8_rainbow_hue_step.1 sampleNeoRainbow 50 (by decide) (by decide)⟩

/-! ### Claim C2: what a `start*` call does and does not replace -/

/-- Agreement on every `NeoState` field except `color2` and `rainbowHue` —
the two fields a `BLINK1` animation neither reads nor writes. -/
def agreeBlink1 (s t : NeoState) : Prop :=
  s.animationMode = t.animationMode ∧ s.animationEnabled = t.animationEnabled ∧
  s.color1 = t.color1 ∧ s.blinkState = t.blinkState ∧
  s.currentInterval = t.currentInterval ∧ s.previousUpdateMillis = t.previousUpdateMillis ∧
  s.pixel0 = t.pixel0

instance (s t : NeoState) : Decidable (agreeBlink1 s t) := by
  unfold agreeBlink1; infer_instance

/-- Agreement on every `NeoState` field except `color1`, `color2`,
`blinkState` and `pixel0` — the fields a `RAINBOW` animation neither reads
nor rewrites before its first tick. -/
def agreeRainbow (s t : NeoState) : Prop :=
  s.animationMode = t.animationMode ∧ s.animationEnabled = t.animationEnabled ∧
  s.rainbowHue = t.rainbowHue ∧ s.currentInterval = t.currentInterval ∧
  s.previousUpdateMillis = t.previousUpdateMillis

instance (s t : NeoState) : Decidable (agreeRainbow s t) := by
  unfold agreeRainbow; infer_instance

/-- Claim C2 (amended): starting a new effect replaces the mode, the enable
flag, the interval, the timestamp and every field the new mode reads or
writes, so the subsequent behavior of that mode is independent of the
previous animation; but fields exclusive to other modes are left stale, not
cleared.  Stated as: two `startBlink` results agree everywhere except the
untouched `color2`/`rainbowHue`, and `BLINK1`-mode updates preserve that
agreement; two `startRainbow` results agree everywhere except the untouched
`color1`/`color2`/`blinkState`/`pixel0`, and `RAINBOW`-mode updates
preserve that agreement. -/
theorem C2_start_replacement_amended :
    (∀ (r g b : Nat) (i : Int) (now : Nat) (s t : NeoState),
      agreeBlink1 (neoStartBlink r g b i now s) (neoStartBlink r g b i now t)) ∧
    (∀ (s t : NeoState) (now : Nat), agreeBlink1 s t → s.animationMode = .BLINK1 →
      agreeBlink1 (neoUpdate now s) (neoUpdate now t)) ∧
    (∀ (i : Int) (now : Nat) (s t : NeoState),
      agreeRainbow (neoStartRainbow i now s) (neoStartRainbow i now t)) ∧
    (∀ (s t : NeoState) (now : Nat), agreeRainbow s t → s.animationMode = .RAINBOW →
      agreeRainbow (neoUpdate now s) (neoUpdate now t)) := by
  refine ⟨?_, ?_, ?_, ?_⟩
  · intro r g b i now s t
    exact ⟨rfl, rfl, rfl, rfl, rfl, rfl, rfl⟩
  · intro s t now hag hm
    obtain ⟨h1, h2, h3, h4, h5, h6, h7⟩ := hag
    have hmt : t.animationMode = .BLINK1 := h1 ▸ hm
    unfold neoUpdate neoUpdateN agreeBlink1
    rw [hm, hmt, ← h2, ← h3, ← h4, ← h5, ← h6]
    by_cases he : s.animationEnabled = false
    · rw [if_pos he, if_pos he]
      exact ⟨h1, h2, h3, h4, h5, h6, h7⟩
    · rw [if_neg he, if_neg he]
      by_cases hel : sub32 (now % U32) s.previousUpdateMillis <
          uintOfInterval s.currentInterval
      · rw [if_pos hel, if_pos hel]
        exact ⟨h1, h2, h3, h4, h5, h6, h7⟩
      · rw [if_neg hel, if_neg hel]
        exact ⟨rfl, rfl, rfl, rfl, rfl, rfl, rfl⟩
  · intro i now s t
    exact ⟨rfl, rfl, rfl, rfl, rfl⟩
  · intro s t now hag hm
    obtain ⟨h1, h2, h3, h4, h5⟩ := hag
    have hmt : t.animationMode = .RAINBOW := h1 ▸ hm
    unfold neoUpdate neoUpdateN agreeRainbow
    rw [hm, hmt, ← h2, ← h3, ← h4, ← h5]
    by_cases he : s.animationEnabled = false
    · rw [if_pos he, if_pos he]
      exact ⟨h1, h2, h3, h4, h5⟩
    · rw [if_neg he, if_neg he]
      by_cases hel : sub32 (now % U32) s.previousUpdateMillis <
          uintOfInterval s.currentInterval
      · rw [if_pos hel, if_pos hel]
        exact ⟨h1, h2, h3, h4, h5⟩
      · rw [if_neg hel, if_neg hel]
        exact ⟨rfl, rfl, rfl, rfl, rfl⟩

/-- Witness for the amended C2 at concrete states: two states that differ
only in `color2`/`rainbowHue`, both mid-`BLINK1`, stay in agreement through
an update. -/
theorem C2_start_replacement_amended_witness :
    agreeBlink1
      (neoUpdate 200 { sampleNeoBlink with color2 := NeoColor.rgb 4 5 6, rainbowHue := 77 })
      (neoUpdate 200 sampleNeoBlink) :=
  C2_start_replacement_amended.2.1
    { sampleNeoBlink with color2 := NeoColor.rgb 4 5 6, rainbowHue := 77 }
    sampleNeoBlink 200 (by decide) (by decide)

/-- Claim C2 counterexample: the whole-state replacement the claim asserts
does not happen.  Switching from `BLINK2` to `BLINK1` leaves the second
color in place (`color2` is still `rgb 4 5 6`, not the cleared/initial
`black`); switching from `BLINK1` to `RAINBOW` leaves the first blink color
in `color1`; and `startRainbow` does not even rewrite the displayed pixel
until its first tick. -/
theorem C2_counterexample :
    (neoStartBlink 7 8 9 100 0 (neoStartBlink2 1 2 3 4 5 6 100 0 neoInit)).color2 =
      NeoColor.rgb 4 5 6 ∧
    (neoStartBlink 7 8 9 100 0 (neoStartBlink2 1 2 3 4 5 6 100 0 neoInit)).color2 ≠
      neoInit.color2 ∧
    (neoStartRainbow 50 0 (neoStartBlink 7 8 9 100 0 neoInit)).color1 = NeoColor.rgb 7 8 9 ∧
    (neoStartRainbow 50 0 (neoSetColor 1 2 3 neoInit)).pixel0 = NeoColor.rgb 1 2 3 := by
  decide

/-! ### Claim C6: buffer overflow handling -/

/-- Claim C6: when an appended byte pushes the line buffer past 60
characters before any newline, the buffer is discarded, the single fixed
line `REJECT,BUFFER_OVERFLOW,command too long` is emitted (independent of
the discarded text — nothing of it is echoed), and the handler keeps
processing the remaining input from an empty buffer. -/
theorem C6_buffer_overflow (buf : List Char) (c : Char) (rest : List Char)
    (hlen : buf.length = 60) (hc : c ≠ '\n') :
    handleSerialAux ⟨buf, false⟩ (c :: rest) =
      ((handleSerialAux ⟨[], false⟩ rest).1, (handleSerialAux ⟨[], false⟩ rest).2.1,
        overflowMsg :: (handleSerialAux ⟨[], false⟩ rest).2.2) := by
  conv_lhs => unfold handleSerialAux
  rw [if_neg hc]
  have hov : (buf ++ [c]).length > 60 := by simp [hlen]
  rw [if_pos hov]

/-- Witness for C6: a full 60-character buffer hit by one more byte, with
two more bytes pending; the overflow line is emitted and the remaining
bytes still form a command. -/
theorem C6_buffer_overflow_witness :
    handleSerialAux ⟨List.replicate 60 'A', false⟩ ('x' :: ['B', '\n']) =
      ((handleSerialAux ⟨[], false⟩ ['B', '\n']).1,
        (handleSerialAux ⟨[], false⟩ ['B', '\n']).2.1,
        overflowMsg :: (handleSerialAux ⟨[], false⟩ ['B', '\n']).2.2) :=
  C6_buffer_overflow (List.replicate 60 'A') 'x' ['B', '\n'] (by decide) (by decide)

/-! ### Claim C10: whitespace-only lines and empty/NULL commands -/

theorem trimWS_all_space {l : List Char} (h : ∀ c ∈ l, isSpaceC c = true) :
    trimWS l = [] := by
  unfold trimWS
  rw [dropWhile_all h]
  rfl

/-- A buffer holding only non-newline whitespace, fed the rest of such a
line and then `'\n'`: the terminator finds a non-empty buffer, trims it to
empty, and marks a command ready — the line is not silently dropped. -/
theorem handleSerial_ws_aux :
    ∀ (l buf : List Char), (∀ c ∈ buf ++ l, isSpaceC c = true ∧ c ≠ '\n') →
      (buf ++ l).length ≤ 60 → buf ++ l ≠ [] →
      handleSerialAux ⟨buf, false⟩ (l ++ ['\n']) = (⟨[], true⟩, [], []) := by
  intro l
  induction l with
  | nil =>
    intro buf h hlen hne
    rw [List.append_nil] at h hlen hne
    have hb : buf.length > 0 := List.length_pos.mpr hne
    show handleSerialAux ⟨buf, false⟩ ('\n' :: []) = (⟨[], true⟩, [], [])
    conv_lhs => unfold handleSerialAux
    rw [if_pos rfl, if_pos hb, trimWS_all_space (fun c hc => (h c hc).1)]
  | cons a t ih =>
    intro buf h hlen hne
    have hmem : a ∈ buf ++ a :: t := List.mem_append_right buf (List.mem_cons_self a t)
    have hca : a ≠ '\n' := (h a hmem).2
    show handleSerialAux ⟨buf, false⟩ (a :: (t ++ ['\n'])) = (⟨[], true⟩, [], [])
    conv_lhs => unfold handleSerialAux
    rw [if_neg hca]
    have hlen2 : (buf ++ [a]).length ≤ 60 := by
      have := hlen
      simp only [List.length_append, List.length_cons] at this ⊢
      simp only [List.length_cons, List.length_nil]
      omega
    have hnov : ¬((buf ++ [a]).length > 60) := by omega
    rw [if_neg hnov]
    have hassoc : (buf ++ [a]) ++ t = buf ++ a :: t := by
      rw [List.append_assoc]
      rfl
    exact ih (buf ++ [a]) (by rw [hassoc]; exact h) (by rw [hassoc]; exact hlen)
      (by rw [hassoc]; exact hne)

/-- Claim C10: a line of whitespace only, terminated by `'\n'`, is not
silently ignored: the non-empty buffer trims to the empty command, which
`processCommands` dispatches to produce the single response line
`REJECT,,unknown command` (with no backend effect); `processCommand` also
tolerates an empty command string and a NULL pointer, producing the same
rejection; only a line that is empty before trimming (a bare terminator) is
silently dropped. -/
theorem C10_whitespace_line :
    (∀ l : List Char, l ≠ [] → (∀ c ∈ l, isSpaceC c = true ∧ c ≠ '\n') → l.length ≤ 60 →
      handleSerialAux ⟨[], false⟩ (l ++ ['\n']) = (⟨[], true⟩, [], [])) ∧
    processCommandsM digBackend 0 ⟨[], true⟩ digInit =
      (⟨[], false⟩, digInit, ["REJECT,,unknown command".data]) ∧
    processCommand (some []) = ⟨.rejected, "REJECT,,unknown command".data⟩ ∧
    processCommand none = ⟨.rejected, "REJECT,,unknown command".data⟩ ∧
    handleSerialAux ⟨[], false⟩ ['\n'] = (⟨[], false⟩, [], []) := by
  refine ⟨?_, by decide, by decide, by decide, by decide⟩
  intro l hne h hlen
  exact handleSerial_ws_aux l [] (by simpa using h) (by simpa using hlen)
    (by simpa using hne)

/-- Witness for C10 on the line consisting of one space and one tab. -/
theorem C10_whitespace_line_witness :
    handleSerialAux ⟨[], false⟩ ([' ', '\t'] ++ ['\n']) = (⟨[], true⟩, [], []) :=
  C10_whitespace_line.1 [' ', '\t'] (by decide) (by decide) (by decide)

/-! ### Claim C1: order of dispatch and update inside one loop iteration -/

/-- Claim C1 (amended): in every `universalLoop` iteration the animation
tick `update()` runs unconditionally, and it runs BEFORE the command
completed in that iteration is dispatched — `processCommands()` is called
after `update()`, so a newly completed command takes effect only from the
next iteration's tick onward.  The resulting backend state is the dispatch
applied to the already-updated state. -/
theorem C1_update_before_dispatch_amended {σ : Type} (B : Backend σ) (now : Nat)
    (h : HandlerState) (led : σ) (input : List Char) :
    LoopEvent.update ∈ (universalLoopEv B now h led input).events ∧
    (universalLoopEv B now h led input).events =
      (if (handleSerialAux h input).1.commandReady then
        [LoopEvent.update, LoopEvent.dispatch] else [LoopEvent.update]) ∧
    (universalLoopEv B now h led input).led =
      (if (handleSerialAux h input).1.commandReady then
        (schProcessCommand B now (handleSerialAux h input).1.serialBuffer
          (B.update now led)).1
      else B.update now led) := by
  unfold universalLoopEv processCommandsM
  by_cases hr : (handleSerialAux h input).1.commandReady
  · simp [hr]
  · simp [hr]

/-- A digital backend mid-blink with its interval already elapsed: input
state for the C1 counterexample. -/
def c1BlinkDue : DigState :=
  { digInit with
    animationEnabled := true
    currentInterval := 100
    previousUpdateMillis := 0 }

/-- Claim C1 counterexample: with the blink due and the line `OFF\n`
arriving in the same iteration, the code's event order is update THEN
dispatch — not dispatch before update as claimed — and the result differs
observably from the claimed order (`claimOrderLoop`): the tick ran on the
still-active animation, toggling the phase flag and resetting the
timestamp, before `OFF` was applied. -/
theorem C1_counterexample :
    (universalLoopEv digBackend 1000 ⟨[], false⟩ c1BlinkDue "OFF\n".data).events =
      [LoopEvent.update, LoopEvent.dispatch] ∧
    (universalLoopEv digBackend 1000 ⟨[], false⟩ c1BlinkDue "OFF\n".data).led ≠
      (claimOrderLoop digBackend 1000 ⟨[], false⟩ c1BlinkDue "OFF\n".data).led ∧
    (universalLoopEv digBackend 1000 ⟨[], false⟩ c1BlinkDue "OFF\n".data).led.blinkState =
      true ∧
    (claimOrderLoop digBackend 1000 ⟨[], false⟩ c1BlinkDue "OFF\n".data).led.blinkState =
      false ∧
    (universalLoopEv digBackend 1000 ⟨[], false⟩
        c1BlinkDue "OFF\n".data).led.previousUpdateMillis = 1000 ∧
    (claimOrderLoop digBackend 1000 ⟨[], false⟩
        c1BlinkDue "OFF\n".data).led.previousUpdateMillis = 0 := by
  decide

/-! ### Claims C3 and C4: COLOR and RAINBOW validation -/

theorem firstIsMinus_natToDec (n : Nat) : firstIsMinus (natToDec n) = false := by
  obtain ⟨c, cs, hcons⟩ := List.exists_cons_of_ne_nil (natToDec_ne_nil n)
  have hc : isDigitC c = true :=
    natToDec_all_digits n c (by rw [hcons]; exact List.mem_cons_self c cs)
  obtain ⟨_, hminus, _, _⟩ := isDigitC_char_facts hc
  rw [hcons]
  show (c == '-') = false
  simp [hminus]

theorem splitComma_color (f1 f2 f3 : List Char) (h1 : ',' ∉ f1) (h2 : ',' ∉ f2)
    (h3 : ',' ∉ f3) :
    splitComma ("COLOR,".data ++ (f1 ++ ',' :: (f2 ++ ',' :: f3))) =
      ["COLOR".data, f1, f2, f3] := by
  show splitComma ("COLOR".data ++ ',' :: (f1 ++ ',' :: (f2 ++ ',' :: f3))) = _
  rw [splitComma_append (show ',' ∉ "COLOR".data by decide),
    splitComma_append h1, splitComma_append h2, splitComma_no_comma h3]

/-- Reduction of `parseColorCommand` on an explicit three-field command line reduces to
its validation of the three `atoi` values. -/
theorem parseColorCommand_fields (f1 f2 f3 : List Char) (h1 : ',' ∉ f1) (h2 : ',' ∉ f2)
    (h3 : ',' ∉ f3) :
    parseColorCommand ("COLOR,".data ++ (f1 ++ ',' :: (f2 ++ ',' :: f3))) =
      (if atoiL f1 < 0 ∨ atoiL f1 > 255 ∨ atoiL f2 < 0 ∨ atoiL f2 > 255 ∨
          atoiL f3 < 0 ∨ atoiL f3 > 255 then none
       else if (atoiL f1 = 0 ∧ firstIsMinus f1) ∨ (atoiL f2 = 0 ∧ firstIsMinus f2) ∨
          (atoiL f3 = 0 ∧ firstIsMinus f3) then none
       else some ((atoiL f1).toNat, (atoiL f2).toNat, (atoiL f3).toNat)) := by
  unfold parseColorCommand
  rw [splitComma_color f1 f2 f3 h1 h2 h3,
    show ("COLOR".data : List Char) = ['C', 'O', 'L', 'O', 'R'] from rfl]
  rfl

/-- Dispatch of `processCommand` on any line starting `COLOR,`. -/
theorem processCommand_COLOR (rest : List Char) :
    processCommand (some ("COLOR,".data ++ rest)) =
      (match parseColorCommand ("COLOR,".data ++ rest) with
       | some _ => ⟨.accepted, snprintf128 ("ACCEPTED,".data ++ ("COLOR,".data ++ rest))⟩
       | none => ⟨.rejected,
          snprintf128 ("REJECT,".data ++ ("COLOR,".data ++ rest) ++ ",invalid format".data)⟩) := by
  simp only [processCommand]
  have hlen : ("COLOR,".data ++ rest).length = 6 + rest.length := by
    rw [List.length_append]; rfl
  rw [if_neg (by omega : ¬("COLOR,".data ++ rest).length = 0)]
  rw [if_neg (show ¬("COLOR,".data ++ rest = "ON".data) by
    intro heq
    have hl := congrArg List.length heq
    rw [hlen] at hl
    simp only [show ("ON".data).length = 2 from rfl] at hl
    omega)]
  rw [if_neg (show ¬("COLOR,".data ++ rest = "OFF".data) by
    intro heq
    have hl := congrArg List.length heq
    rw [hlen] at hl
    simp only [show ("OFF".data).length = 3 from rfl] at hl
    omega)]
  rw [if_pos (isPrefixOf_append_self "COLOR,".data rest)]

/-- Dispatch of `processCommand` on any line starting `RAINBOW,`. -/
theorem processCommand_RAINBOW (rest : List Char) :
    processCommand (some ("RAINBOW,".data ++ rest)) =
      (match parseRainbowCommand ("RAINBOW,".data ++ rest) with
       | some i => ⟨.accepted, snprintf128 ("ACCEPTED,RAINBOW,interval=".data ++ intToDec i)⟩
       | none => ⟨.rejected,
          snprintf128 ("REJECT,".data ++ ("RAINBOW,".data ++ rest) ++
            ",invalid interval".data)⟩) := by
  simp only [processCommand]
  have hlen : ("RAINBOW,".data ++ rest).length = 8 + rest.length := by
    rw [List.length_append]; rfl
  rw [if_neg (by omega : ¬("RAINBOW,".data ++ rest).length = 0)]
  rw [if_neg (show ¬("RAINBOW,".data ++ rest = "ON".data) by
    intro heq
    have hl := congrArg List.length heq
    rw [hlen] at hl
    simp only [show ("ON".data).length = 2 from rfl] at hl
    omega)]
  rw [if_neg (show ¬("RAINBOW,".data ++ rest = "OFF".data) by
    intro heq
    have hl := congrArg List.length heq
    rw [hlen] at hl
    simp only [show ("OFF".data).length = 3 from rfl] at hl
    omega)]
  have hC : ("COLOR,".data).isPrefixOf ("RAINBOW,".data ++ rest) = false := by
    show (('C' : Char) :: "OLOR,".data).isPrefixOf ('R' :: ("AINBOW,".data ++ rest)) = false
    exact isPrefixOf_cons_ne (by decide)
  rw [if_neg (by simp [hC])]
  have hB1 : ("BLINK1,".data).isPrefixOf ("RAINBOW,".data ++ rest) = false := by
    show (('B' : Char) :: "LINK1,".data).isPrefixOf ('R' :: ("AINBOW,".data ++ rest)) = false
    exact isPrefixOf_cons_ne (by decide)
  rw [if_neg (by simp [hB1])]
  have hB2 : ("BLINK2,".data).isPrefixOf ("RAINBOW,".data ++ rest) = false := by
    show (('B' : Char) :: "LINK2,".data).isPrefixOf ('R' :: ("AINBOW,".data ++ rest)) = false
    exact isPrefixOf_cons_ne (by decide)
  rw [if_neg (by simp [hB2])]
  rw [if_pos (isPrefixOf_append_self "RAINBOW,".data rest)]

theorem parseRainbow_canonical (n : Nat) (hn : 0 < n) :
    parseRainbowCommand ("RAINBOW,".data ++ natToDec n) = some ((n : Int)) := by
  unfold parseRainbowCommand
  rw [if_pos (isPrefixOf_append_self "RAINBOW,".data (natToDec n)),
    show ("RAINBOW,".data ++ natToDec n).drop 8 = natToDec n from rfl,
    scanIntFrom_natToDec n]
  show (if ((n : Int) > 0) then some ((n : Int)) else none) = some ((n : Int))
  rw [if_pos (by exact_mod_cast hn)]

theorem parseRainbow_scan_none (t : List Char) (hs : scanIntFrom t = none) :
    parseRainbowCommand ("RAINBOW,".data ++ t) = none := by
  unfold parseRainbowCommand
  rw [if_pos (isPrefixOf_append_self "RAINBOW,".data t),
    show ("RAINBOW,".data ++ t).drop 8 = t from rfl, hs]

theorem parseRainbow_scan_nonpos (t : List Char) (v : Int) (r : List Char)
    (hs : scanIntFrom t = some (v, r)) (hv : v ≤ 0) :
    parseRainbowCommand ("RAINBOW,".data ++ t) = none := by
  unfold parseRainbowCommand
  rw [if_pos (isPrefixOf_append_self "RAINBOW,".data t),
    show ("RAINBOW,".data ++ t).drop 8 = t from rfl, hs]
  show (if v > 0 then some v else none) = none
  rw [if_neg (by omega)]

theorem processRainbow_reject (t : List Char)
    (hp : parseRainbowCommand ("RAINBOW,".data ++ t) = none) (hlen : t.length ≤ 52) :
    processCommand (some ("RAINBOW,".data ++ t)) =
      ⟨.rejected, "REJECT,".data ++ ("RAINBOW,".data ++ t) ++ ",invalid interval".data⟩ := by
  rw [processCommand_RAINBOW, hp]
  have hta : snprintf128 ("REJECT,".data ++ ("RAINBOW,".data ++ t) ++
      ",invalid interval".data) =
      "REJECT,".data ++ ("RAINBOW,".data ++ t) ++ ",invalid interval".data := by
    unfold snprintf128
    apply take_all_of_le
    simp only [List.length_append]
    rw [show ("REJECT,".data).length = 7 from rfl, show ("RAINBOW,".data).length = 8 from rfl,
      show (",invalid interval".data).length = 17 from rfl]
    omega
  simp only [hta]

/-- Claim C3 (amended): rejection with `"invalid format"` happens exactly
when some field's `atoi` value falls outside `[0,255]` (or a zero-valued
field's text starts with `'-'`); such a line is parsed to nothing — never
clamped or truncated to a byte.  But "textually non-numeric" does not imply
rejection: `atoi` takes the longest numeric prefix and yields 0 for text
with none, so a non-numeric field whose `atoi` value lands in `[0,255]`
(e.g. `abc` ↦ 0) is accepted.  Conversely every canonical byte triple
`COLOR,r,g,b` is accepted as `SetColor{r,g,b}`. -/
theorem C3_color_validation_amended :
    (∀ r g b : Nat, r ≤ 255 → g ≤ 255 → b ≤ 255 →
      parseColorCommand
          ("COLOR,".data ++ (natToDec r ++ ',' :: (natToDec g ++ ',' :: natToDec b))) =
        some (r, g, b) ∧
      (processCommand (some ("COLOR,".data ++
          (natToDec r ++ ',' :: (natToDec g ++ ',' :: natToDec b))))).result =
        .accepted) ∧
    (∀ f1 f2 f3 : List Char, ',' ∉ f1 → ',' ∉ f2 → ',' ∉ f3 →
      (atoiL f1 < 0 ∨ 255 < atoiL f1 ∨ atoiL f2 < 0 ∨ 255 < atoiL f2 ∨
        atoiL f3 < 0 ∨ 255 < atoiL f3) →
      f1.length + f2.length + f3.length ≤ 52 →
      parseColorCommand ("COLOR,".data ++ (f1 ++ ',' :: (f2 ++ ',' :: f3))) = none ∧
      processCommand (some ("COLOR,".data ++ (f1 ++ ',' :: (f2 ++ ',' :: f3)))) =
        ⟨.rejected, "REJECT,".data ++ ("COLOR,".data ++ (f1 ++ ',' :: (f2 ++ ',' :: f3))) ++
          ",invalid format".data⟩) := by
  constructor
  · intro r g b hr hg hb
    have hparse : parseColorCommand
        ("COLOR,".data ++ (natToDec r ++ ',' :: (natToDec g ++ ',' :: natToDec b))) =
        some (r, g, b) := by
      rw [parseColorCommand_fields _ _ _ (natToDec_no_comma r) (natToDec_no_comma g)
        (natToDec_no_comma b), atoiL_natToDec, atoiL_natToDec, atoiL_natToDec,
        if_neg (by omega), firstIsMinus_natToDec, firstIsMinus_natToDec,
        firstIsMinus_natToDec, if_neg (by simp)]
      simp
    refine ⟨hparse, ?_⟩
    rw [processCommand_COLOR, hparse]
  · intro f1 f2 f3 h1 h2 h3 hout hlen
    have hparse : parseColorCommand ("COLOR,".data ++ (f1 ++ ',' :: (f2 ++ ',' :: f3))) =
        none := by
      rw [parseColorCommand_fields f1 f2 f3 h1 h2 h3, if_pos (by omega)]
    refine ⟨hparse, ?_⟩
    rw [processCommand_COLOR, hparse]
    have hta : snprintf128 ("REJECT,".data ++
        ("COLOR,".data ++ (f1 ++ ',' :: (f2 ++ ',' :: f3))) ++ ",invalid format".data) =
        "REJECT,".data ++ ("COLOR,".data ++ (f1 ++ ',' :: (f2 ++ ',' :: f3))) ++
          ",invalid format".data := by
      unfold snprintf128
      apply take_all_of_le
      simp only [List.length_append, List.length_cons, List.length_nil]
      omega
    simp only [hta]

/-- Witness for C3 at the concrete rejected line `COLOR,300,0,0`. -/
theorem C3_color_validation_amended_witness :
    parseColorCommand ("COLOR,".data ++ ("300".data ++ ',' :: ("0".data ++ ',' :: "0".data))) =
      none ∧
    processCommand (some ("COLOR,".data ++
        ("300".data ++ ',' :: ("0".data ++ ',' :: "0".data)))) =
      ⟨.rejected, "REJECT,".data ++
        ("COLOR,".data ++ ("300".data ++ ',' :: ("0".data ++ ',' :: "0".data))) ++
        ",invalid format".data⟩ :=
  C3_color_validation_amended.2 "300".data "0".data "0".data (by decide) (by decide)
    (by decide) (by decide) (by decide)

/-- Claim C3 counterexample: `COLOR,abc,0,0` has a textually non-numeric
red field, yet the command is ACCEPTED (as `SetColor{0,0,0}`, because
`atoi("abc") = 0`), not rejected with `"invalid format"` as the claim
requires. -/
theorem C3_counterexample :
    parseColorCommand ("COLOR,abc,0,0".data) = some (0, 0, 0) ∧
    processCommand (some ("COLOR,abc,0,0".data)) =
      ⟨.accepted, "ACCEPTED,COLOR,abc,0,0".data⟩ := by
  decide

/-- Claim C4 (amended): every canonical positive machine integer
`RAINBOW,n` is accepted; when the `%d` scan of the interval text fails
outright, or scans a non-positive value, the line is rejected with
`"invalid interval"`.  But the scan is a prefix scan, so interval text that
is not a number as a whole (e.g. `5x`) is still accepted whenever its
numeric prefix is positive. -/
theorem C4_rainbow_validation_amended :
    (∀ n : Nat, 0 < n → n < 2147483648 →
      parseRainbowCommand ("RAINBOW,".data ++ natToDec n) = some ((n : Int)) ∧
      (processCommand (some ("RAINBOW,".data ++ natToDec n))).result = .accepted) ∧
    (∀ t : List Char, scanIntFrom t = none → t.length ≤ 52 →
      processCommand (some ("RAINBOW,".data ++ t)) =
        ⟨.rejected, "REJECT,".data ++ ("RAINBOW,".data ++ t) ++ ",invalid interval".data⟩) ∧
    (∀ (t : List Char) (v : Int) (r : List Char), scanIntFrom t = some (v, r) → v ≤ 0 →
      t.length ≤ 52 →
      processCommand (some ("RAINBOW,".data ++ t)) =
        ⟨.rejected, "REJECT,".data ++ ("RAINBOW,".data ++ t) ++
          ",invalid interval".data⟩) := by
  refine ⟨?_, ?_, ?_⟩
  · intro n hn _
    have hparse := parseRainbow_canonical n hn
    refine ⟨hparse, ?_⟩
    rw [processCommand_RAINBOW, hparse]
  · intro t hs hlen
    exact processRainbow_reject t (parseRainbow_scan_none t hs) hlen
  · intro t v r hs hv hlen
    exact processRainbow_reject t (parseRainbow_scan_nonpos t v r hs hv) hlen

/-- Witness for C4 at the concrete rejected line `RAINBOW,0`. -/
theorem C4_rainbow_validation_amended_witness :
    processCommand (some ("RAINBOW,".data ++ "0".data)) =
      ⟨.rejected, "REJECT,".data ++ ("RAINBOW,".data ++ "0".data) ++
        ",invalid interval".data⟩ :=
  C4_rainbow_validation_amended.2.2 "0".data 0 [] (by decide) (by decide) (by decide)

/-- Claim C4 counterexample: `RAINBOW,5x` has non-numeric interval text,
yet the command is ACCEPTED with interval 5 (the `%d` prefix scan ignores
the trailing `x`), not rejected with `"invalid interval"` as the claim
requires. -/
theorem C4_counterexample :
    parseRainbowCommand ("RAINBOW,5x".data) = some 5 ∧
    processCommand (some ("RAINBOW,5x".data)) =
      ⟨.accepted, "ACCEPTED,RAINBOW,interval=5".data⟩ := by
  decide

end CcLed
